import Mathlib

/-!
Shallow embedding of the standup-raven server core: the per-channel standup
configuration store, the per-user submission store, and the report / add-members
commands, together with proofs of the stated properties.

Go loops become structural recursion, the Mattermost plugin API and the
key-value store become an explicit `Env` record threaded through each
operation, and fallible operations return `Except String`.
-/

namespace StandupRaven

/-- Modelled from the spec: `otime.OTime` wraps a timestamp.  Modelled as
minutes since an arbitrary epoch; both time-of-day window values and localized
"now" instants use this representation, as in the source where both are Go
`time.Time` values. -/
structure OTime where
  time : Nat
deriving DecidableEq, Repr

/-- Decimal digit characters of a numeral, most significant first (empty for
zero). -/
def natDigits : Nat → List Char
  | 0 => []
  | n + 1 => natDigits ((n + 1) / 10) ++ [Char.ofNat (48 + (n + 1) % 10)]
decreasing_by exact Nat.div_lt_self (Nat.succ_pos n) (by decide)

/-- Reads a digit string left to right, accumulating its value; fails on a
non-digit character. -/
def readDigits : Nat → List Char → Option Nat
  | acc, [] => some acc
  | acc, c :: cs => if c.isDigit then readDigits (acc * 10 + (c.toNat - 48)) cs else none

/-- Renders a day number as its decimal numeral. -/
def dayNumeral (d : Nat) : String := String.mk (if d = 0 then ['0'] else natDigits d)

/-- Parses a decimal day numeral; fails on the empty string or a non-digit. -/
def parseDayNumeral (s : String) : Option Nat :=
  if s.data = [] then none else readDigits 0 s.data

/-- Modelled from the spec: `OTime.GetDateString` is the canonical day string
used in storage keys; two timestamps on the same calendar day produce the same
string.  The textual layout itself is external Go `time` formatting, modelled
as the decimal day number. -/
def OTime.getDateString (t : OTime) : String := dayNumeral (t.time / 1440)

/-- Modelled from the spec: `Format(dateLayout)` renders the calendar date of a
timestamp in the fixed textual date format. -/
def formatDate (t : OTime) : String := dayNumeral (t.time / 1440)

/-- Modelled from the spec: `time.Parse(dateLayout, s)` reads a date in the
fixed textual format, yielding the timestamp at midnight of that day. -/
def parseDate (s : String) : Option OTime :=
  (parseDayNumeral s).map (fun d => OTime.mk (d * 1440))

/-- `UserStandup` from `standup/main.go`: a member's submission.  The Go map
from section label to task list is modelled as an association list. -/
structure UserStandup where
  UserID : String
  ChannelID : String
  Standup : List (String × List String)
deriving DecidableEq, Repr

/-- `StandupConfig` from `standup/main.go`: one channel's standup
configuration. -/
structure StandupConfig where
  ChannelId : String
  WindowOpenTime : OTime
  WindowCloseTime : OTime
  ReportFormat : String
  Members : List String
  Sections : List String
  Enabled : Bool
  Timezone : String
  WindowOpenReminderEnabled : Bool
  WindowCloseReminderEnabled : Bool
deriving DecidableEq, Repr

/-- A typed blob stored in the key-value store; Go JSON serialization is
modelled as this identity embedding, the blobs being opaque to the store. -/
inductive KVValue where
  | channels : List String → KVValue
  | config : StandupConfig → KVValue
  | standup : UserStandup → KVValue
deriving DecidableEq

/-- The external collaborators, threaded explicitly: the key-value store, the
Mattermost channel/user directory, the per-call outcomes of delivery
primitives, the record of delivered reports, and the clock / timezone
database. -/
structure Env where
  kv : String → Option KVValue
  channels : List String
  users : String → Option String
  addOk : String → String → Bool
  sendOk : String → OTime → Bool
  delivered : List (String × OTime)
  utcMinutes : Nat
  tzOffset : String → Option Nat

/-- Writes one key of the key-value store. -/
def kvSet (env : Env) (key : String) (v : KVValue) : Env :=
  { env with kv := fun k => if k = key then some v else env.kv k }

/-- Modelled from the spec: `util.GetKeyHash` hashes each storage key with a
deterministic, collision-resistant function; modelled as injective tagging. -/
def GetKeyHash (s : String) : String := "#" ++ s

/-- Modelled from the spec: registry storage key `allStandupChannels`. -/
def CacheKeyAllStandupChannels : String := "allStandupChannels"

/-- Modelled from the spec: config storage key, the literal shown in the spec
as `standupConfig:<channelId>`. -/
def CacheKeyPrefixTeamStandupConfig : String := "standupConfig:"

/-- Modelled from the spec: `config.ReportFormats`, the fixed enumerated set of
allowed report formats. -/
def ReportFormats : List String := ["user_aggregated", "type_aggregated"]

/-- Modelled from the spec: `notification.ReportVisibilityPublic`. -/
def ReportVisibilityPublic : String := "public"

/-- Modelled from the spec: `notification.ReportVisibilityPrivate`. -/
def ReportVisibilityPrivate : String := "private"

/-- Modelled from the spec: `otime.Now(timezone)`, the current instant
localized to the zone; an unresolvable zone falls back to zero offset. -/
def otimeNow (env : Env) (tz : String) : OTime :=
  ⟨env.utcMinutes + (env.tzOffset tz).getD 0⟩

/-- `standupSectionsMinLength` from `standup/main.go`. -/
def standupSectionsMinLength : Nat := 1

/-- Modelled from the spec: `util.ContainsDuplicates` reports a duplicated
element of the list, if any. -/
def containsDuplicates : List String → Option String
  | [] => none
  | x :: xs => if x ∈ xs then some x else containsDuplicates xs

/-- Helper for `uniqString`: drops every element already seen. -/
def uniqStringAux : List String → List String → List String
  | _, [] => []
  | seen, x :: xs =>
    if x ∈ seen then uniqStringAux seen xs else x :: uniqStringAux (x :: seen) xs

/-- Modelled from the spec: `funk.UniqString` removes duplicate strings,
keeping the first occurrence of each. -/
def uniqString (l : List String) : List String := uniqStringAux [] l

/-- `UserStandup.IsValid` from `standup/main.go`: `some msg` is the Go error,
`none` is a nil error.  `GetChannel` success is membership in the directory,
and the loop computing `maxLen` over the section map is a fold of `util.Max`
over the association list. -/
def UserStandup.IsValid (env : Env) (us : UserStandup) : Option String :=
  if us.UserID = "" then some "No user ID specified in standup"
  else if us.ChannelID = "" then some "No channels ID specified in standup"
  else if us.ChannelID ∉ env.channels then
    some ("No channel found with channel ID: " ++ us.ChannelID)
  else if us.Standup.foldl (fun maxLen sectionTasks => Nat.max maxLen sectionTasks.2.length) 0 = 0 then
    some "No tasks found. Please specify tasks for at least one section"
  else none

/-- `StandupConfig.IsValid` from `standup/main.go`.  `emptyTime` is the zero
`OTime`; `Time.After` is strict comparison of the wrapped timestamps;
`time.LoadLocation` success is resolution in the timezone database. -/
def StandupConfig.IsValid (env : Env) (sc : StandupConfig) : Option String :=
  if sc.ChannelId = "" then some "Channel ID cannot be empty"
  else if sc.WindowOpenTime = OTime.mk 0 then some "window open time cannot be empty"
  else if sc.WindowCloseTime = OTime.mk 0 then some "window close time cannot be empty"
  else if sc.WindowCloseTime.time < sc.WindowOpenTime.time then
    some "Window open time cannot be after window close time"
  else if sc.Timezone = "" then some "Timezone cannot be empty"
  else if sc.ReportFormat ∉ ReportFormats then
    some ("Invalid report format specified. Report format should be one of: \x22"
      ++ String.intercalate "\x22, \x22" ReportFormats ++ "\x22")
  else if (env.tzOffset sc.Timezone).isNone then
    some ("Invalid timezone specified : \x22" ++ sc.Timezone ++ "\x22")
  else if sc.Sections.length < standupSectionsMinLength then
    some "Too few sections in standup. Required at least 1 section."
  else
    match containsDuplicates sc.Sections with
    | some duplicateSection =>
      some ("duplicate sections are not allowed. Contains duplicate section \x27"
        ++ duplicateSection ++ "\x27")
    | none =>
      match containsDuplicates sc.Members with
      | some duplicateMember =>
        some ("duplicate members are not allowed. Contains duplicate member \x27"
          ++ duplicateMember ++ "\x27")
      | none => none

/-- `GetStandupChannels` from `standup/main.go`: reads the registry blob;
missing data yields the empty registry.  The Go channel-id-to-itself map is
modelled as the list of its keys. -/
def GetStandupChannels (env : Env) : Except String (List String) :=
  match env.kv (GetKeyHash CacheKeyAllStandupChannels) with
  | none => .ok []
  | some (.channels cs) => .ok cs
  | some _ => .error "Couldn\x27t unmarshal standup channel list into map"

/-- `setStandupChannels` from `standup/main.go`: writes the registry blob. -/
def setStandupChannels (env : Env) (channels : List String) : Except String Unit × Env :=
  (.ok (), kvSet env (GetKeyHash CacheKeyAllStandupChannels) (.channels channels))

/-- `AddStandupChannel` from `standup/main.go`: inserts the channel id into the
registry map (`channels[channelID] = channelID`) and writes it back. -/
def AddStandupChannel (env : Env) (channelID : String) : Except String Unit × Env :=
  match GetStandupChannels env with
  | .error e => (.error e, env)
  | .ok channels =>
    setStandupChannels env (if channelID ∈ channels then channels else channels ++ [channelID])

/-- `GetStandupConfig` from `standup/main.go`: reads the config blob for the
channel; missing data is `none`, a blob of the wrong shape is an unmarshal
error. -/
def GetStandupConfig (env : Env) (channelID : String) : Except String (Option StandupConfig) :=
  match env.kv (GetKeyHash (CacheKeyPrefixTeamStandupConfig ++ channelID)) with
  | none => .ok none
  | some (.config sc) => .ok (some sc)
  | some _ => .error "Couldn\x27t unmarshal data into standup config"

/-- `SaveStandupConfig` from `standup/main.go`: deduplicates `Members` via
`funk.UniqString`, serializes, and writes the config blob under the channel's
config key; returns the (deduplicated) config it wrote. -/
def SaveStandupConfig (env : Env) (standupConfig : StandupConfig) : Except String StandupConfig × Env :=
  let sc := { standupConfig with Members := uniqString standupConfig.Members }
  (.ok sc, kvSet env (GetKeyHash (CacheKeyPrefixTeamStandupConfig ++ sc.ChannelId)) (.config sc))

/-- `SaveUserStandup` from `standup/main.go`: loads the channel's config,
fails when it is absent, and otherwise writes the submission under the key
`<dateKey>_<channelId><userId>`, the date key being today's date string in the
channel's configured timezone. -/
def SaveUserStandup (env : Env) (userStandup : UserStandup) : Except String Unit × Env :=
  match GetStandupConfig env userStandup.ChannelID with
  | .error e => (.error e, env)
  | .ok none =>
    (.error ("standup not configured for channel: " ++ userStandup.ChannelID), env)
  | .ok (some standupConfig) =>
    let key := (otimeNow env standupConfig.Timezone).getDateString
      ++ "_" ++ userStandup.ChannelID ++ userStandup.UserID
    (.ok (), kvSet env (GetKeyHash key) (.standup userStandup))

/-- `GetUserStandup` from `standup/main.go`: reads the submission stored under
`<dateKey>_<channelId><userId>` for the given date; missing data is `none`. -/
def GetUserStandup (env : Env) (userID channelID : String) (date : OTime) : Except String (Option UserStandup) :=
  let key := date.getDateString ++ "_" ++ channelID ++ userID
  match env.kv (GetKeyHash key) with
  | none => .ok none
  | some (.standup us) => .ok (some us)
  | some _ => .error "Couldn\x27t unmarshal user standup data"

/-- Modelled from the spec: `strings.ToLower`, used for the case-insensitive
match of the visibility token (ASCII folding suffices for `public`/`private`). -/
def stringToLower (s : String) : String := String.mk (s.data.map Char.toLower)

/-- The context properties populated by the report command's validate phase:
`context.Props["visibility"]` and `context.Props["dates"]`. -/
structure ReportRequest where
  visibility : String
  dates : List OTime
deriving DecidableEq, Repr

/-- The date-processing loop of `validateCommandStandup`: parses each argument
as a date, aborting with the user-facing message on the first failure. -/
def parseDates : List String → Except String (List OTime)
  | [] => .ok []
  | arg :: rest =>
    match parseDate arg with
    | none =>
      .error ("Error parsing this date: " ++ arg ++ ". Please specify date in format: DD-MM-YYYY")
    | some t => (parseDates rest).map (fun ds => t :: ds)

/-- `validateCommandStandup` from the report command: loads the channel's
config, applies the zero- and one-argument defaults (today's date in the
channel's timezone, private visibility), then parses all but the final
visibility token as dates. -/
def validateCommandStandup (env : Env) (channelId : String) (args : List String) : Except String ReportRequest :=
  match GetStandupConfig env channelId with
  | .error _ => .error "Error getting standup config of the channel"
  | .ok none => .error "Standup not configured for the channel"
  | .ok (some standupConfig) =>
    let args :=
      if args.length = 0 then
        [formatDate (otimeNow env standupConfig.Timezone), ReportVisibilityPrivate]
      else if args.length = 1 then
        let lastArg := stringToLower (args.getLast?.getD "")
        if lastArg ≠ ReportVisibilityPublic ∧ lastArg ≠ ReportVisibilityPrivate then
          args ++ [ReportVisibilityPrivate]
        else
          [formatDate (otimeNow env standupConfig.Timezone), lastArg]
      else args
    match parseDates args.dropLast with
    | .error e => .error e
    | .ok dates => .ok ⟨stringToLower (args.getLast?.getD ""), dates⟩

/-- Modelled from the spec: `notification.SendStandupReport` assembles the
report for each requested channel and the date and delivers it; a per-channel
delivery failure (`DeliveryError`) is reported but does not stop the remaining
channels.  Each successful delivery is recorded in `delivered`. -/
def SendStandupReport (env : Env) (channelIds : List String) (date : OTime) (visibility userId : String) : Except String Unit × Env :=
  match channelIds with
  | [] => (.ok (), env)
  | ch :: rest =>
    if env.sendOk ch date then
      SendStandupReport { env with delivered := env.delivered ++ [(ch, date)] } rest date visibility userId
    else
      match SendStandupReport env rest date visibility userId with
      | (_, env2) => (.error ("failed to send standup report for channel: " ++ ch), env2)

/-- The date loop of `executeCommandStandup`: calls `SendStandupReport` for
each date, discarding any error and continuing with the next date. -/
def reportDatesLoop (env : Env) (channelId visibility userId : String) : List OTime → Env
  | [] => env
  | date :: rest =>
    reportDatesLoop (SendStandupReport env [channelId] date visibility userId).2
      channelId visibility userId rest

/-- `executeCommandStandup` from the report command: sends a report for every
validated date and always answers with the fixed ephemeral text. -/
def executeCommandStandup (env : Env) (channelId : String) (req : ReportRequest) (userId : String) : String × Env :=
  ("Standup reports generated", reportDatesLoop env channelId req.visibility userId req.dates)

/-- `strings.TrimLeft(username, "@")`: strips every leading at sign. -/
def trimMention (username : String) : String :=
  String.mk (username.data.dropWhile (fun c => c = '@'))

/-- The resolution loop of `validateAddMembers`: trims each username, skips
usernames already seen (the Go `userIds` map keyed by username, modelled in
insertion order), resolves the rest via `GetUserByUsername`, aborting on the
first unresolvable username. -/
def resolveUsernames (env : Env) : List (String × String) → List String → Except String (List (String × String))
  | userIds, [] => .ok userIds
  | userIds, username :: rest =>
    let u := trimMention username
    if (userIds.lookup u).isSome then resolveUsernames env userIds rest
    else
      match env.users u with
      | none => .error ("Couldn\x27t find user with username: " ++ u)
      | some uid => resolveUsernames env (userIds ++ [(u, uid)]) rest

/-- `validateAddMembers` from `command/add_members.go`: requires at least one
argument and resolves every (deduplicated, mention-trimmed) username to a user
id, storing the ids in the context. -/
def validateAddMembers (env : Env) (args : List String) : Except String (List String) :=
  if args.length < 1 then .error "Please specify at least one user to add"
  else
    match resolveUsernames env [] args with
    | .error e => .error e
    | .ok userIds => .ok (userIds.map Prod.snd)

/-- `addChannelMembers` from `command/add_members.go`: invites each user to the
channel, collecting those added and those that failed, never aborting the
loop. -/
def addChannelMembers (env : Env) (channelID : String) : List String → List String × List String
  | [] => ([], [])
  | userId :: rest =>
    match addChannelMembers env channelID rest with
    | (addedUsers, notAddedUsers) =>
      if env.addOk channelID userId then (userId :: addedUsers, notAddedUsers)
      else (addedUsers, userId :: notAddedUsers)

/-- `addStandupMembers` from `command/add_members.go`: appends the given users
to the channel's standup config members and saves the config. -/
def addStandupMembers (env : Env) (channelID : String) (usernames : List String) : Except String Unit × Env :=
  match GetStandupConfig env channelID with
  | .error e => (.error e, env)
  | .ok none => (.error "standup is not configured for this channel", env)
  | .ok (some standupConfig) =>
    match SaveStandupConfig env { standupConfig with Members := standupConfig.Members ++ usernames } with
    | (.error e, env2) => (.error e, env2)
    | (.ok _, env2) => (.ok (), env2)

/-- `buildSuccessMessage` from `command/add_members.go`. -/
def buildSuccessMessage (addedUsers notAddedUsers : List String) : String :=
  let text := toString addedUsers.length ++ " users added successfully."
  if notAddedUsers.length > 0 then
    text ++ " Following users couldn\x27t be added: " ++ String.intercalate ", " notAddedUsers
      ++ "\nMake sure these users users exist on the system."
  else text

/-- `executeAddMembers` from `command/add_members.go`: invites the resolved
users to the channel, records the successfully invited ones in the standup
config, and answers with the per-user success/failure summary. -/
def executeAddMembers (env : Env) (channelId : String) (userIds : List String) : String × Env :=
  match addChannelMembers env channelId userIds with
  | (addedUsers, notAddedUsers) =>
    match addStandupMembers env channelId addedUsers with
    | (.error e, env2) => ("Error occurred while adding standup members: " ++ e, env2)
    | (.ok _, env2) => (buildSuccessMessage addedUsers notAddedUsers, env2)

/-- Concrete test fixture: a well-formed standup config for channel `c`. -/
def cfgFixture : StandupConfig :=
  { ChannelId := "c"
    WindowOpenTime := ⟨540⟩
    WindowCloseTime := ⟨1020⟩
    ReportFormat := "user_aggregated"
    Members := ["alice", "bob"]
    Sections := ["Today"]
    Enabled := true
    Timezone := "UTC"
    WindowOpenReminderEnabled := true
    WindowCloseReminderEnabled := true }

/-- Concrete test fixture: a world whose store holds `cfgFixture` for channel
`c`, with two known users; adding `uid.alice` to a channel succeeds while
adding `uid.bob` fails. -/
def envFixture : Env :=
  { kv := fun k =>
      if k = GetKeyHash (CacheKeyPrefixTeamStandupConfig ++ "c") then some (.config cfgFixture)
      else none
    channels := ["c"]
    users := fun u =>
      if u = "alice" then some "uid.alice" else if u = "bob" then some "uid.bob" else none
    addOk := fun _ u => u == "uid.alice"
    sendOk := fun _ d => d.time % 2880 < 1440
    delivered := []
    utcMinutes := 3000
    tzOffset := fun tz =>
      if tz = "UTC" then some 0 else if tz = "Asia/Kolkata" then some 330 else none }

/-- Concrete test fixture: an empty world. -/
def envEmpty : Env :=
  { kv := fun _ => none
    channels := ["c"]
    users := fun _ => none
    addOk := fun _ _ => false
    sendOk := fun _ _ => false
    delivered := []
    utcMinutes := 0
    tzOffset := fun tz => if tz = "UTC" then some 0 else none }

/-- Concrete test fixture: like `cfgFixture` but with the window open time
equal to the window close time. -/
def cfgEqualWindow : StandupConfig :=
  { cfgFixture with WindowOpenTime := ⟨540⟩, WindowCloseTime := ⟨540⟩ }

/-- Concrete test fixture: like `cfgFixture` but with an empty channel id,
violating the section-3 invariants. -/
def cfgNoChannel : StandupConfig := { cfgFixture with ChannelId := "" }

/-- Concrete test fixture: a submission whose only section holds exactly one
task, the empty string. -/
def usEmptyStringTask : UserStandup :=
  { UserID := "u1", ChannelID := "c", Standup := [("Today", [""])] }

end StandupRaven

namespace StandupRaven

/-! Library lemmas about the digit codec and the list helpers. -/

theorem readDigits_append (acc : Nat) (xs ys : List Char) :
    readDigits acc (xs ++ ys)
      = match readDigits acc xs with
        | some a => readDigits a ys
        | none => none := by
  induction xs generalizing acc with
  | nil => simp [readDigits]
  | cons c cs ih =>
    simp only [List.cons_append, readDigits]
    by_cases h : c.isDigit
    · simp only [h, if_true]
      exact ih _
    · simp [h]

theorem digitChar_spec (r : Nat) (h : r < 10) :
    (Char.ofNat (48 + r)).isDigit = true ∧ (Char.ofNat (48 + r)).toNat = 48 + r := by
  interval_cases r <;> exact ⟨rfl, rfl⟩

theorem natDigits_ne_nil (n : Nat) (h : 0 < n) : natDigits n ≠ [] := by
  match n, h with
  | m + 1, _ => rw [natDigits]; simp

theorem readDigits_natDigits (n : Nat) :
    ∀ acc, readDigits acc (natDigits n) = some (acc * 10 ^ (natDigits n).length + n) := by
  induction n using Nat.strong_induction_on with
  | _ n ih =>
    match n with
    | 0 => intro acc; simp [natDigits, readDigits]
    | m + 1 =>
      intro acc
      rw [natDigits, readDigits_append]
      have hdiv : (m + 1) / 10 < m + 1 := Nat.div_lt_self (Nat.succ_pos m) (by decide)
      rw [ih _ hdiv acc]
      have hd := digitChar_spec ((m + 1) % 10) (Nat.mod_lt _ (by decide))
      simp only [readDigits, hd.1, if_true]
      rw [hd.2, Nat.add_sub_cancel_left]
      simp only [List.length_append, List.length_cons, List.length_nil, Nat.zero_add]
      rw [pow_succ, ← Nat.mul_assoc]
      generalize acc * 10 ^ (natDigits ((m + 1) / 10)).length = A
      simp only [Option.some.injEq]
      omega

theorem parseDayNumeral_dayNumeral (d : Nat) : parseDayNumeral (dayNumeral d) = some d := by
  rcases Nat.eq_zero_or_pos d with h | h
  · subst h; decide
  · have hne := natDigits_ne_nil d h
    have hd0 : d ≠ 0 := Nat.pos_iff_ne_zero.mp h
    simp only [parseDayNumeral, dayNumeral, if_neg hd0]
    rw [if_neg hne, readDigits_natDigits d 0]
    simp

theorem parseDate_formatDate (t : OTime) :
    parseDate (formatDate t) = some ⟨t.time / 1440 * 1440⟩ := by
  simp [parseDate, formatDate, parseDayNumeral_dayNumeral]

theorem containsDuplicates_eq_none (l : List String) :
    containsDuplicates l = none ↔ l.Nodup := by
  induction l with
  | nil => simp [containsDuplicates]
  | cons x xs ih =>
    by_cases h : x ∈ xs
    · simp [containsDuplicates, h]
    · simp [containsDuplicates, h, ih]

theorem mem_uniqStringAux (a : String) :
    ∀ (l seen : List String), a ∈ uniqStringAux seen l ↔ a ∈ l ∧ a ∉ seen := by
  intro l
  induction l with
  | nil => simp [uniqStringAux]
  | cons x xs ih =>
    intro seen
    by_cases h : x ∈ seen
    · rw [uniqStringAux, if_pos h, ih]
      simp only [List.mem_cons]
      by_cases hax : a = x
      · subst hax; tauto
      · tauto
    · rw [uniqStringAux, if_neg h]
      simp only [List.mem_cons, ih, List.mem_cons]
      by_cases hax : a = x
      · subst hax; tauto
      · tauto

theorem mem_uniqString (a : String) (l : List String) : a ∈ uniqString l ↔ a ∈ l := by
  rw [uniqString, mem_uniqStringAux]
  simp

theorem nodup_uniqStringAux : ∀ (l seen : List String), (uniqStringAux seen l).Nodup := by
  intro l
  induction l with
  | nil => intro seen; simp [uniqStringAux]
  | cons x xs ih =>
    intro seen
    by_cases h : x ∈ seen
    · rw [uniqStringAux, if_pos h]; exact ih seen
    · rw [uniqStringAux, if_neg h]
      refine List.nodup_cons.mpr ⟨fun hc => ?_, ih (x :: seen)⟩
      exact ((mem_uniqStringAux x xs (x :: seen)).mp hc).2 (List.mem_cons_self x seen)

theorem nodup_uniqString (l : List String) : (uniqString l).Nodup :=
  nodup_uniqStringAux l []

theorem regKey_ne_configKey (ch : String) :
    GetKeyHash CacheKeyAllStandupChannels
      ≠ GetKeyHash (CacheKeyPrefixTeamStandupConfig ++ ch) := by
  intro h
  have hd := congrArg String.data h
  simp only [GetKeyHash, CacheKeyAllStandupChannels, CacheKeyPrefixTeamStandupConfig,
    String.data_append] at hd
  exact absurd (List.head_eq_of_cons_eq (List.tail_eq_of_cons_eq hd)) (by decide)

theorem getStandupConfig_eq_some (env : Env) (ch : String) (cfg : StandupConfig) :
    GetStandupConfig env ch = .ok (some cfg) ↔
    env.kv (GetKeyHash (CacheKeyPrefixTeamStandupConfig ++ ch)) = some (.config cfg) := by
  unfold GetStandupConfig
  rcases h : env.kv (GetKeyHash (CacheKeyPrefixTeamStandupConfig ++ ch)) with _ | v
  · simp
  · cases v <;> simp

/-- C9: for every `UserStandup` whose channel has no stored standup config
(`GetStandupConfig` returns absent), `SaveUserStandup` returns an error and
performs no write to the key-value store, leaving all stored state
unchanged. -/
theorem saveUserStandup_absent_config_no_write (env : Env) (us : UserStandup)
    (h : GetStandupConfig env us.ChannelID = .ok none) :
    (SaveUserStandup env us).1
      = .error ("standup not configured for channel: " ++ us.ChannelID) ∧
    (SaveUserStandup env us).2 = env := by
  simp [SaveUserStandup, h]

theorem saveUserStandup_absent_config_no_write_witness :
    GetStandupConfig envEmpty usEmptyStringTask.ChannelID = .ok none ∧
    (SaveUserStandup envEmpty usEmptyStringTask).1
      = .error ("standup not configured for channel: " ++ usEmptyStringTask.ChannelID) ∧
    (SaveUserStandup envEmpty usEmptyStringTask).2 = envEmpty :=
  ⟨rfl, saveUserStandup_absent_config_no_write envEmpty usEmptyStringTask rfl⟩

/-- C4: saving a config and then loading it back for the same channel yields
exactly the saved config with `Members` deduplicated (first occurrences kept)
and every other field preserved. -/
theorem saveStandupConfig_roundtrip (env : Env) (cfg : StandupConfig) :
    (SaveStandupConfig env cfg).1 = .ok { cfg with Members := uniqString cfg.Members } ∧
    GetStandupConfig (SaveStandupConfig env cfg).2 cfg.ChannelId
      = .ok (some { cfg with Members := uniqString cfg.Members }) ∧
    (uniqString cfg.Members).Nodup ∧
    ∀ a, a ∈ uniqString cfg.Members ↔ a ∈ cfg.Members := by
  refine ⟨rfl, ?_, nodup_uniqString _, fun a => mem_uniqString a _⟩
  simp [SaveStandupConfig, GetStandupConfig, kvSet]

/-- C3: for every submission saved while the channel's config exists, the
storage key is the date string of the current day in the channel's configured
timezone, concatenated as `<dateKey>_<channelId><userId>` and hashed; nothing
else is written, and `GetUserStandup` for the same user, channel and date
derives the identical key and returns the submission. -/
theorem saveUserStandup_key_by_channel_timezone (env : Env) (us : UserStandup)
    (cfg : StandupConfig) (h : GetStandupConfig env us.ChannelID = .ok (some cfg)) :
    (SaveUserStandup env us).1 = .ok () ∧
    (SaveUserStandup env us).2.kv
        (GetKeyHash ((otimeNow env cfg.Timezone).getDateString
          ++ "_" ++ us.ChannelID ++ us.UserID))
      = some (.standup us) ∧
    (∀ k, k ≠ GetKeyHash ((otimeNow env cfg.Timezone).getDateString
          ++ "_" ++ us.ChannelID ++ us.UserID) →
        (SaveUserStandup env us).2.kv k = env.kv k) ∧
    GetUserStandup (SaveUserStandup env us).2 us.UserID us.ChannelID
        (otimeNow env cfg.Timezone)
      = .ok (some us) := by
  refine ⟨?_, ?_, ?_, ?_⟩
  · simp [SaveUserStandup, h]
  · simp [SaveUserStandup, h, kvSet]
  · intro k hk
    simp [SaveUserStandup, h, kvSet, hk]
  · simp [SaveUserStandup, h, kvSet, GetUserStandup]

theorem saveUserStandup_key_by_channel_timezone_witness :
    GetStandupConfig envFixture usEmptyStringTask.ChannelID = .ok (some cfgFixture) ∧
    (SaveUserStandup envFixture usEmptyStringTask).1 = .ok () ∧
    (SaveUserStandup envFixture usEmptyStringTask).2.kv
        (GetKeyHash ((otimeNow envFixture cfgFixture.Timezone).getDateString
          ++ "_" ++ usEmptyStringTask.ChannelID ++ usEmptyStringTask.UserID))
      = some (.standup usEmptyStringTask) ∧
    GetUserStandup (SaveUserStandup envFixture usEmptyStringTask).2
        usEmptyStringTask.UserID usEmptyStringTask.ChannelID
        (otimeNow envFixture cfgFixture.Timezone)
      = .ok (some usEmptyStringTask) := by
  have h := saveUserStandup_key_by_channel_timezone envFixture usEmptyStringTask cfgFixture
    (by rfl)
  exact ⟨by rfl, h.1, h.2.1, h.2.2.2⟩

/-- C10: for a channel with an existing standup config, running
`addStandupMembers` with user ids that are all already present in the config's
`Members` succeeds and leaves the persisted member set unchanged, because
`SaveStandupConfig` deduplicates `Members` on every save even though
`addStandupMembers` appends unconditionally. -/
theorem addStandupMembers_idempotent_on_members (env : Env) (channelID : String)
    (cfg : StandupConfig) (usernames : List String)
    (hcfg : GetStandupConfig env channelID = .ok (some cfg))
    (hid : cfg.ChannelId = channelID)
    (hsub : ∀ u ∈ usernames, u ∈ cfg.Members) :
    (addStandupMembers env channelID usernames).1 = .ok () ∧
    GetStandupConfig (addStandupMembers env channelID usernames).2 channelID
      = .ok (some { cfg with Members := uniqString (cfg.Members ++ usernames) }) ∧
    ∀ a, a ∈ uniqString (cfg.Members ++ usernames) ↔ a ∈ cfg.Members := by
  subst hid
  have hkv := (getStandupConfig_eq_some env cfg.ChannelId cfg).mp hcfg
  refine ⟨?_, ?_, ?_⟩
  · simp [addStandupMembers, hcfg, SaveStandupConfig]
  · simp [addStandupMembers, GetStandupConfig, hkv, SaveStandupConfig, kvSet]
  · intro a
    rw [mem_uniqString]
    simp only [List.mem_append]
    exact ⟨fun hm => hm.elim id (fun h2 => hsub a h2), Or.inl⟩

theorem addStandupMembers_idempotent_on_members_witness :
    GetStandupConfig envFixture "c" = .ok (some cfgFixture) ∧
    cfgFixture.ChannelId = "c" ∧
    (∀ u ∈ ["bob", "alice"], u ∈ cfgFixture.Members) ∧
    (addStandupMembers envFixture "c" ["bob", "alice"]).1 = .ok () ∧
    GetStandupConfig (addStandupMembers envFixture "c" ["bob", "alice"]).2 "c"
      = .ok (some { cfgFixture with
          Members := uniqString (cfgFixture.Members ++ ["bob", "alice"]) }) := by
  have h := addStandupMembers_idempotent_on_members envFixture "c" cfgFixture
    ["bob", "alice"] (by rfl) rfl (by decide)
  exact ⟨by rfl, rfl, by decide, h.1, h.2.1⟩

theorem sendStandupReport_single_step (env : Env) (ch : String) (date : OTime)
    (vis uid : String) :
    (SendStandupReport env [ch] date vis uid).2
      = { env with delivered := env.delivered
            ++ if env.sendOk ch date then [(ch, date)] else [] } := by
  by_cases h : env.sendOk ch date
  · simp [SendStandupReport, h]
  · simp [SendStandupReport, h]

theorem reportDatesLoop_delivered (ch vis uid : String) :
    ∀ (dates : List OTime) (env : Env),
      (reportDatesLoop env ch vis uid dates).delivered
        = env.delivered
          ++ (dates.filter (fun d => env.sendOk ch d)).map (fun d => (ch, d)) := by
  intro dates
  induction dates with
  | nil => intro env; simp [reportDatesLoop]
  | cons d rest ih =>
    intro env
    rw [reportDatesLoop, sendStandupReport_single_step, ih]
    by_cases h : env.sendOk ch d <;> simp [h, List.filter_cons]

/-- C8: on-demand report generation sends a report for every validated date,
a failure for one date never stopping the remaining dates (the error is
swallowed and the loop continues), and the command always answers with the
ephemeral text `Standup reports generated` regardless of how many dates
failed. -/
theorem executeCommandStandup_best_effort (env : Env) (channelId userId : String)
    (req : ReportRequest) :
    (executeCommandStandup env channelId req userId).1 = "Standup reports generated" ∧
    (executeCommandStandup env channelId req userId).2.delivered
      = env.delivered
        ++ (req.dates.filter (fun d => env.sendOk channelId d)).map
            (fun d => (channelId, d)) :=
  ⟨rfl, reportDatesLoop_delivered channelId req.visibility userId req.dates env⟩

/-- C1 counterexample: `SaveStandupConfig` checks no section-3 invariant
before writing and registers nothing.  The config with an empty channel id is
rejected by `StandupConfig.IsValid`, yet `SaveStandupConfig` succeeds, the
config is afterwards retrievable (so a write happened), and the channel
registry is still empty. -/
theorem saveStandupConfig_skips_validation_counterexample :
    StandupConfig.IsValid envEmpty cfgNoChannel = some "Channel ID cannot be empty" ∧
    (SaveStandupConfig envEmpty cfgNoChannel).1 = .ok cfgNoChannel ∧
    GetStandupConfig (SaveStandupConfig envEmpty cfgNoChannel).2 cfgNoChannel.ChannelId
      = .ok (some cfgNoChannel) ∧
    GetStandupChannels (SaveStandupConfig envEmpty cfgNoChannel).2 = .ok [] := by
  refine ⟨rfl, ?_, ?_, ?_⟩ <;> rfl

/-- C1 (amended): `SaveStandupConfig` itself validates nothing and never
touches the channel registry: it deduplicates `Members` and writes
unconditionally, succeeding even for configs `StandupConfig.IsValid` rejects.
The registry is updated by the separate `AddStandupChannel`, which puts the
channel id into the registry and is idempotent and safe to repeat. -/
theorem saveStandupConfig_unconditional_addStandupChannel_idempotent
    (env : Env) (ch : String) (cfg : StandupConfig) (cs : List String)
    (hreg : GetStandupChannels env = .ok cs) :
    (SaveStandupConfig env cfg).1 = .ok { cfg with Members := uniqString cfg.Members } ∧
    GetStandupChannels (SaveStandupConfig env cfg).2 = GetStandupChannels env ∧
    GetStandupChannels (AddStandupChannel env ch).2
      = .ok (if ch ∈ cs then cs else cs ++ [ch]) ∧
    ch ∈ (if ch ∈ cs then cs else cs ++ [ch]) ∧
    ∀ k, (AddStandupChannel (AddStandupChannel env ch).2 ch).2.kv k
        = (AddStandupChannel env ch).2.kv k := by
  have e1 : AddStandupChannel env ch
      = (.ok (), kvSet env (GetKeyHash CacheKeyAllStandupChannels)
          (.channels (if ch ∈ cs then cs else cs ++ [ch]))) := by
    simp [AddStandupChannel, hreg, setStandupChannels]
  have hreg2 : GetStandupChannels (kvSet env (GetKeyHash CacheKeyAllStandupChannels)
      (.channels (if ch ∈ cs then cs else cs ++ [ch])))
      = .ok (if ch ∈ cs then cs else cs ++ [ch]) := by
    simp [GetStandupChannels, kvSet]
  have hch2 : ch ∈ (if ch ∈ cs then cs else cs ++ [ch]) := by
    by_cases h : ch ∈ cs
    · rw [if_pos h]; exact h
    · rw [if_neg h]; simp
  refine ⟨rfl, ?_, ?_, hch2, ?_⟩
  · simp only [GetStandupChannels, SaveStandupConfig, kvSet]
    rw [if_neg (regKey_ne_configKey _)]
  · rw [e1, hreg2]
  · intro k
    rw [e1]
    simp only [AddStandupChannel, hreg2, setStandupChannels, if_pos hch2]
    by_cases hk : k = GetKeyHash CacheKeyAllStandupChannels <;> simp [kvSet, hk]

theorem saveStandupConfig_unconditional_addStandupChannel_idempotent_witness :
    GetStandupChannels envEmpty = .ok [] ∧
    (SaveStandupConfig envEmpty cfgNoChannel).1
      = .ok { cfgNoChannel with Members := uniqString cfgNoChannel.Members } ∧
    GetStandupChannels (SaveStandupConfig envEmpty cfgNoChannel).2
      = GetStandupChannels envEmpty ∧
    GetStandupChannels (AddStandupChannel envEmpty "c").2
      = .ok (if "c" ∈ ([] : List String) then [] else [] ++ ["c"]) ∧
    ∀ k, (AddStandupChannel (AddStandupChannel envEmpty "c").2 "c").2.kv k
        = (AddStandupChannel envEmpty "c").2.kv k := by
  have h := saveStandupConfig_unconditional_addStandupChannel_idempotent envEmpty "c"
    cfgNoChannel [] (by rfl)
  exact ⟨by rfl, h.1, h.2.1, h.2.2.1, h.2.2.2.2⟩

/-- C2 counterexample: a config whose window open time equals its window close
time (both 09:00) is accepted by `StandupConfig.IsValid`, although
`windowOpenTime` is not strictly earlier than `windowCloseTime`. -/
theorem isValid_accepts_equal_window_counterexample :
    StandupConfig.IsValid envEmpty cfgEqualWindow = none ∧
    ¬ cfgEqualWindow.WindowOpenTime.time < cfgEqualWindow.WindowCloseTime.time := by
  exact ⟨by rfl, by decide⟩

/-- C2 (amended): every config accepted by `StandupConfig.IsValid` has
`windowOpenTime ≤ windowCloseTime` (equality is allowed: only
`windowOpenTime` strictly after `windowCloseTime` is rejected), a timezone
that resolves in the timezone database, and duplicate-free sections and
members; contrapositively, violating any of these is rejected. -/
theorem isValid_window_le_timezone_nodup (env : Env) (sc : StandupConfig)
    (h : StandupConfig.IsValid env sc = none) :
    sc.WindowOpenTime.time ≤ sc.WindowCloseTime.time ∧
    (env.tzOffset sc.Timezone).isSome = true ∧
    sc.Sections.Nodup ∧ sc.Members.Nodup := by
  unfold StandupConfig.IsValid at h
  split_ifs at h with h1 h2 h3 h4 h5 h6 h7 h8
  rcases hs : containsDuplicates sc.Sections with _ | d
  · rcases hm : containsDuplicates sc.Members with _ | d
    · refine ⟨Nat.not_lt.mp h4, ?_, (containsDuplicates_eq_none _).mp hs,
        (containsDuplicates_eq_none _).mp hm⟩
      simp only [Option.isNone_iff_eq_none] at h7
      exact Option.isSome_iff_ne_none.mpr h7
    · rw [hs, hm] at h; simp at h
  · rw [hs] at h; simp at h

theorem isValid_window_le_timezone_nodup_witness :
    StandupConfig.IsValid envEmpty cfgFixture = none ∧
    (cfgFixture.WindowOpenTime.time ≤ cfgFixture.WindowCloseTime.time ∧
     (envEmpty.tzOffset cfgFixture.Timezone).isSome = true ∧
     cfgFixture.Sections.Nodup ∧ cfgFixture.Members.Nodup) :=
  ⟨rfl, isValid_window_le_timezone_nodup envEmpty cfgFixture rfl⟩

theorem foldl_max_len_eq_zero (l : List (String × List String)) :
    ∀ a, l.foldl (fun maxLen sectionTasks => Nat.max maxLen sectionTasks.2.length) a = 0
      ↔ a = 0 ∧ ∀ p ∈ l, p.2 = [] := by
  induction l with
  | nil => simp
  | cons x xs ih =>
    intro a
    rw [List.foldl_cons, ih]
    simp only [List.mem_cons, Nat.max_eq_zero_iff, List.length_eq_zero]
    constructor
    · rintro ⟨⟨h1, h2⟩, h3⟩
      exact ⟨h1, fun p hp => hp.elim (fun he => he ▸ h2) (h3 p)⟩
    · rintro ⟨h1, h2⟩
      exact ⟨⟨h1, h2 x (Or.inl rfl)⟩, fun p hp => h2 p (Or.inr hp)⟩

/-- C5 counterexample: a submission whose only section holds exactly one task,
the empty string, is accepted by `UserStandup.IsValid`, although every entry
of every section is the empty string — a section containing only empty-string
entries does count as non-empty for the code. -/
theorem isValid_accepts_empty_string_task_counterexample :
    UserStandup.IsValid envFixture usEmptyStringTask = none ∧
    (∀ p ∈ usEmptyStringTask.Standup, ∀ t ∈ p.2, t = "") ∧
    usEmptyStringTask.Standup ≠ [] := by
  refine ⟨by rfl, by decide, by decide⟩

/-- C5 (amended): a `UserStandup` all of whose sections have empty task
sequences is always rejected by `UserStandup.IsValid`; for a submission with a
nonempty user id, a nonempty channel id and an existing channel, validation
succeeds exactly when some section holds at least one entry — entries are
counted, not inspected, so empty-string entries count. -/
theorem userStandup_isValid_entry_count (env : Env) (us : UserStandup)
    (hu : us.UserID ≠ "") (hc : us.ChannelID ≠ "") (hch : us.ChannelID ∈ env.channels) :
    (UserStandup.IsValid env us = none ↔ ∃ p ∈ us.Standup, p.2 ≠ []) ∧
    ∀ us2 : UserStandup, (∀ p ∈ us2.Standup, p.2 = []) →
      UserStandup.IsValid env us2 ≠ none := by
  constructor
  · rw [UserStandup.IsValid, if_neg hu, if_neg hc, if_neg (by simpa using hch)]
    by_cases hz : us.Standup.foldl
        (fun maxLen sectionTasks => Nat.max maxLen sectionTasks.2.length) 0 = 0
    · rw [if_pos hz]
      have hall := (foldl_max_len_eq_zero us.Standup 0).mp hz
      refine iff_of_false (by simp) ?_
      rintro ⟨p, hp, hne⟩
      exact hne (hall.2 p hp)
    · rw [if_neg hz]
      have hnall : ¬ ∀ p ∈ us.Standup, p.2 = [] :=
        fun hall => hz ((foldl_max_len_eq_zero us.Standup 0).mpr ⟨rfl, hall⟩)
      push_neg at hnall
      simp only [true_iff]
      obtain ⟨p, hp, hne⟩ := hnall
      exact ⟨p, hp, hne⟩
  · intro us2 hall
    have hz := (foldl_max_len_eq_zero us2.Standup 0).mpr ⟨rfl, hall⟩
    rw [UserStandup.IsValid]
    split_ifs with h1 h2 h3 h4 <;> simp_all

theorem stringToLower_private : stringToLower ReportVisibilityPrivate = ReportVisibilityPrivate := by
  decide

theorem stringToLower_public : stringToLower ReportVisibilityPublic = ReportVisibilityPublic := by
  decide

/-- C6: in the report command's validate phase, zero arguments default to
today's date in the channel's configured timezone with private visibility; a
single non-visibility argument is parsed as the date with visibility
defaulting to private; a single visibility token (matched case-insensitively)
keeps that visibility with the date defaulting to today in the channel's
timezone. -/
theorem validateCommandStandup_defaults (env : Env) (channelId : String)
    (cfg : StandupConfig) (a v : String) (d : OTime)
    (hcfg : GetStandupConfig env channelId = .ok (some cfg))
    (ha1 : stringToLower a ≠ ReportVisibilityPublic)
    (ha2 : stringToLower a ≠ ReportVisibilityPrivate)
    (hd : parseDate a = some d)
    (hv : stringToLower v = ReportVisibilityPublic
      ∨ stringToLower v = ReportVisibilityPrivate) :
    validateCommandStandup env channelId []
      = .ok ⟨ReportVisibilityPrivate,
          [⟨(otimeNow env cfg.Timezone).time / 1440 * 1440⟩]⟩ ∧
    validateCommandStandup env channelId [a]
      = .ok ⟨ReportVisibilityPrivate, [d]⟩ ∧
    validateCommandStandup env channelId [v]
      = .ok ⟨stringToLower v,
          [⟨(otimeNow env cfg.Timezone).time / 1440 * 1440⟩]⟩ := by
  refine ⟨?_, ?_, ?_⟩
  · simp only [validateCommandStandup, hcfg]
    simp [parseDates, parseDate_formatDate, stringToLower_private, Except.map]
  · simp only [validateCommandStandup, hcfg]
    simp only [List.length_singleton, List.getLast?_singleton, Option.getD_some]
    rw [if_neg (by decide), if_pos (by decide), if_pos ⟨ha1, ha2⟩]
    simp [parseDates, hd, stringToLower_private, Except.map]
  · simp only [validateCommandStandup, hcfg]
    simp only [List.length_singleton, List.getLast?_singleton, Option.getD_some]
    rw [if_neg (by decide), if_pos (by decide),
      if_neg (show ¬(stringToLower v ≠ ReportVisibilityPublic
        ∧ stringToLower v ≠ ReportVisibilityPrivate) by
          rcases hv with h | h <;> simp [h])]
    rcases hv with h | h <;>
      simp [h, parseDates, parseDate_formatDate, stringToLower_private, stringToLower_public,
        Except.map]

theorem userStandup_isValid_entry_count_witness :
    usEmptyStringTask.UserID ≠ "" ∧ usEmptyStringTask.ChannelID ≠ "" ∧
    usEmptyStringTask.ChannelID ∈ envFixture.channels ∧
    UserStandup.IsValid envFixture usEmptyStringTask = none ∧
    UserStandup.IsValid envFixture
        { UserID := "u1", ChannelID := "c", Standup := [("Today", [])] } ≠ none := by
  have h := userStandup_isValid_entry_count envFixture usEmptyStringTask
    (by decide) (by decide) (by decide)
  refine ⟨by decide, by decide, by decide, ?_, ?_⟩
  · exact h.1.mpr ⟨("Today", [""]), by decide, by decide⟩
  · exact h.2 { UserID := "u1", ChannelID := "c", Standup := [("Today", [])] } (by decide)

theorem validateCommandStandup_defaults_witness :
    GetStandupConfig envFixture "c" = .ok (some cfgFixture) ∧
    parseDate "5" = some ⟨7200⟩ ∧
    validateCommandStandup envFixture "c" []
      = .ok ⟨ReportVisibilityPrivate,
          [⟨(otimeNow envFixture cfgFixture.Timezone).time / 1440 * 1440⟩]⟩ ∧
    validateCommandStandup envFixture "c" ["5"]
      = .ok ⟨ReportVisibilityPrivate, [⟨7200⟩]⟩ ∧
    validateCommandStandup envFixture "c" ["PUBLIC"]
      = .ok ⟨stringToLower "PUBLIC",
          [⟨(otimeNow envFixture cfgFixture.Timezone).time / 1440 * 1440⟩]⟩ := by
  have h := validateCommandStandup_defaults envFixture "c" cfgFixture "5" "PUBLIC" ⟨7200⟩
    (by rfl) (by decide) (by decide) (by decide) (Or.inl (by decide))
  exact ⟨by rfl, by decide, h.1, h.2.1, h.2.2⟩

theorem resolveUsernames_ok (env : Env) :
    ∀ (args : List String) (acc : List (String × String)),
      (∀ a ∈ args, (env.users (trimMention a)).isSome = true) →
      (resolveUsernames env acc args).isOk = true := by
  intro args
  induction args with
  | nil => intro acc _; rfl
  | cons a rest ih =>
    intro acc h
    simp only [resolveUsernames]
    by_cases hl : (acc.lookup (trimMention a)).isSome
    · rw [if_pos hl]
      exact ih acc (fun x hx => h x (List.mem_cons_of_mem _ hx))
    · rw [if_neg hl]
      rcases hu : env.users (trimMention a) with _ | uid
      · have hs := h a (List.mem_cons_self _ _)
        rw [hu] at hs
        simp at hs
      · exact ih _ (fun x hx => h x (List.mem_cons_of_mem _ hx))

theorem addChannelMembers_partition (env : Env) (ch : String) :
    ∀ ids : List String,
      addChannelMembers env ch ids
        = (ids.filter (fun u => env.addOk ch u),
           ids.filter (fun u => !(env.addOk ch u))) := by
  intro ids
  induction ids with
  | nil => rfl
  | cons uid rest ih =>
    rw [addChannelMembers, ih]
    by_cases h : env.addOk ch uid <;> simp [h, List.filter_cons]

/-- C7: the add-members action, given usernames optionally prefixed with `@`,
resolves each (deduplicated, mention-trimmed) username to a user id; executing
it then adds each user independently — a failure to add one user to the
channel never prevents the others from being added — and the response is the
summary message with the count of added users and the names of the users that
could not be added. -/
theorem addMembers_batch_partial_failure (env : Env) (channelId : String)
    (args : List String) (cfg : StandupConfig)
    (hargs : args ≠ [])
    (hres : ∀ a ∈ args, (env.users (trimMention a)).isSome = true)
    (hcfg : GetStandupConfig env channelId = .ok (some cfg)) :
    (validateAddMembers env args).isOk = true ∧
    ∀ ids, validateAddMembers env args = .ok ids →
      addChannelMembers env channelId ids
        = (ids.filter (fun u => env.addOk channelId u),
           ids.filter (fun u => !(env.addOk channelId u))) ∧
      (executeAddMembers env channelId ids).1
        = buildSuccessMessage (ids.filter (fun u => env.addOk channelId u))
            (ids.filter (fun u => !(env.addOk channelId u))) := by
  constructor
  · have hok := resolveUsernames_ok env args [] hres
    rcases h : resolveUsernames env [] args with e | ids0
    · rw [h] at hok
      simp [Except.isOk, Except.toBool] at hok
    · have hlt : ¬ args.length < 1 := by
        have : args.length ≠ 0 := fun hz => hargs (List.length_eq_zero.mp hz)
        omega
      simp only [validateAddMembers]
      rw [if_neg hlt, h]
      rfl
  · intro ids _
    refine ⟨addChannelMembers_partition env channelId ids, ?_⟩
    rw [executeAddMembers, addChannelMembers_partition env channelId ids]
    simp only [addStandupMembers, hcfg, SaveStandupConfig]

theorem addMembers_batch_partial_failure_witness :
    (["@alice", "bob"] : List String) ≠ [] ∧
    GetStandupConfig envFixture "c" = .ok (some cfgFixture) ∧
    validateAddMembers envFixture ["@alice", "bob"] = .ok ["uid.alice", "uid.bob"] ∧
    addChannelMembers envFixture "c" ["uid.alice", "uid.bob"]
      = (["uid.alice"], ["uid.bob"]) ∧
    (executeAddMembers envFixture "c" ["uid.alice", "uid.bob"]).1
      = buildSuccessMessage ["uid.alice"] ["uid.bob"] := by
  have h := addMembers_batch_partial_failure envFixture "c" ["@alice", "bob"] cfgFixture
    (by decide) (by decide) (by rfl)
  have h2 := h.2 ["uid.alice", "uid.bob"] (by rfl)
  refine ⟨by decide, by rfl, by rfl, ?_, ?_⟩
  · rw [h2.1]; rfl
  · rw [h2.2]; rfl

end StandupRaven
